import Mathlib

set_option maxHeartbeats 1000000

namespace InsiderDetect

/-- A security event row as consumed by `FeatureEngineer.compute_batch_features`
(src/backend/app/features/engineering.py).  Timestamps are epoch seconds.
An empty string models a missing `dst_ip` / `file_name`: the source skips a
value unless it is a nonempty string (`isinstance(v, str) and v`). -/
structure Ev where
  ts : ℕ
  user_id : String
  event_type : String
  dst_ip : String
  file_name : String
  bytes : ℤ
  geo_country : String
  deriving DecidableEq, Inhabited

/-- Eviction loop of `update_window` (engineering.py lines 69-75): pop entries
strictly older than the horizon from the front of the deque, removing each
popped value from the frequency counter (`counts[old] -= 1`, delete at 0). -/
def evictLoop (ts horizon : ℕ) :
    List (ℕ × String) → Multiset String → List (ℕ × String) × Multiset String
  | [], c => ([], c)
  | (t, v) :: rest, c =>
    if ts - t > horizon then evictLoop ts horizon rest (c.erase v)
    else ((t, v) :: rest, c)

/-- Deque plus frequency counter of one sliding window in
`compute_batch_features` (`one_hour_window`/`one_hour_counts`, and the 24h pair). -/
structure WState where
  window : List (ℕ × String)
  counts : Multiset String
  deriving DecidableEq

def WState.init : WState := ⟨[], 0⟩

/-- Per-event body of the loop at engineering.py lines 78-98: evict, then append
the current observation when its value is a nonempty string. -/
def stepW (horizon : ℕ) (s : WState) (ts : ℕ) (v : String) : WState :=
  let p := evictLoop ts horizon s.window s.counts
  if v = "" then ⟨p.1, p.2⟩
  else ⟨p.1 ++ [(ts, v)], v ::ₘ p.2⟩

/-- Window states observed after each successive event of the log. -/
def runW (horizon : ℕ) (s : WState) : List (ℕ × String) → List WState
  | [] => []
  | (ts, v) :: rest =>
    let s' := stepW horizon s ts v
    s' :: runW horizon s' rest

/-- Folded window state after a whole log. -/
def procW (horizon : ℕ) (s : WState) (l : List (ℕ × String)) : WState :=
  l.foldl (fun s p => stepW horizon s p.1 p.2) s

/-- Timestamps of the queued observations are non-decreasing. -/
def sortedFst (l : List (ℕ × String)) : Prop :=
  l.Pairwise (fun a b => a.1 ≤ b.1)

/-- Observations of a log that the code keeps in the window at time `t`:
nonempty value and age at most the horizon (eviction is strict, so an
observation aged exactly `h` stays). -/
def specPairs (t h : ℕ) (l : List (ℕ × String)) : List (ℕ × String) :=
  l.filter fun p => decide (p.2 ≠ "") && decide (t - p.1 ≤ h)

/-- Destination-address observations of a per-entity log, as fed to the
one-hour deque (`one_hour_window`). -/
def dstPairs (es : List Ev) : List (ℕ × String) :=
  es.map fun e => (e.ts, e.dst_ip)

/-- File-name observations of a per-entity log, as fed to the 24-hour deque. -/
def filePairs (es : List Ev) : List (ℕ × String) :=
  es.map fun e => (e.ts, e.file_name)

/-- One-hour destination deque/counter after each event of the log. -/
def dstStates (es : List Ev) : List WState :=
  runW 3600 .init (dstPairs es)

/-- Twenty-four-hour file deque/counter after each event of the log. -/
def fileStates (es : List Ev) : List WState :=
  runW 86400 .init (filePairs es)

/-- Value of `unique_dst_ips_1h` emitted for the event at position `i`
(`len(one_hour_counts)` in the source: the number of distinct keys of the
frequency counter after eviction and insertion). -/
def uniqueDstAt (es : List Ev) (i : ℕ) : ℕ :=
  ((dstStates es).getD i .init).counts.toFinset.card

/-- Value of `unique_files_24h` emitted for the event at position `i`. -/
def uniqueFilesAt (es : List Ev) (i : ℕ) : ℕ :=
  ((fileStates es).getD i .init).counts.toFinset.card

/-- Shannon entropy, in nats, of the frequency distribution held by a counter:
`scipy.stats.entropy` of the normalized count vector, and `0.0` when the
counter is empty (engineering.py lines 85-90). -/
noncomputable def shannonEntropy (m : Multiset String) : ℝ :=
  if m = 0 then 0
  else - ∑ v ∈ m.toFinset,
    ((m.count v : ℝ) / m.card) * Real.log ((m.count v : ℝ) / m.card)

/-- Value of `dst_ip_entropy_1h` emitted for the event at position `i`. -/
noncomputable def entropyAt (es : List Ev) (i : ℕ) : ℝ :=
  shannonEntropy ((dstStates es).getD i .init).counts

/-- Rows taken by a pandas time-offset `rolling` aggregate at position `i`:
positions up to `i` whose timestamp lies in the right-closed trailing window
`(tᵢ − horizon, tᵢ]` (pandas offset windows default to `closed='right'`). -/
def rollWin (es : List Ev) (i : ℕ) (horizon : ℕ) : List Ev :=
  (es.take (i + 1)).filter fun e => decide ((es.getD i default).ts - e.ts < horizon)

/-- Feature `login_count_1h`: rolling one-hour count of `login_success` events. -/
def loginCountAt (es : List Ev) (i : ℕ) : ℕ :=
  ((rollWin es i 3600).filter fun e => e.event_type == "login_success").length

/-- Rolling one-hour count of `login_fail` events. -/
def failCountAt (es : List Ev) (i : ℕ) : ℕ :=
  ((rollWin es i 3600).filter fun e => e.event_type == "login_fail").length

/-- Feature `failed_login_rate_1h`: fails over fails-plus-successes in the hour; the
source turns a zero denominator into NaN and then `fillna(0)`. -/
def failedRateAt (es : List Ev) (i : ℕ) : ℚ :=
  let fails := failCountAt es i
  let logins := loginCountAt es i + failCountAt es i
  if logins = 0 then 0 else (fails : ℚ) / (logins : ℚ)

/-- Feature `bytes_transferred_1h`: rolling one-hour sum of `bytes_transferred`. -/
def bytesAt (es : List Ev) (i : ℕ) : ℤ :=
  ((rollWin es i 3600).map Ev.bytes).sum

/-- Hour of day of an epoch-second timestamp (`dt.hour`). -/
def hourOf (ts : ℕ) : ℕ := ts / 3600 % 24

/-- Off-hours flag of one event: local hour below 6 or at least 18. -/
def isOffHours (e : Ev) : Bool :=
  decide (hourOf e.ts < 6 ∨ 18 ≤ hourOf e.ts)

/-- Feature `off_hours_ratio_24h`: rolling 24-hour mean of the off-hours flag. -/
def offHoursRatioAt (es : List Ev) (i : ℕ) : ℚ :=
  let w := rollWin es i 86400
  if w.length = 0 then 0
  else ((w.filter isOffHours).length : ℚ) / (w.length : ℚ)

/-- The fixed nine-field feature vector of `FeatureEngineer.feature_columns`. -/
structure FeatureVec where
  login_count_1h : ℕ
  failed_login_rate_1h : ℚ
  bytes_transferred_1h : ℤ
  unique_dst_ips_1h : ℕ
  unique_files_24h : ℕ
  off_hours_ratio_24h : ℚ
  privilege_change_flag : ℕ
  geo_anomaly_score : ℕ
  dst_ip_entropy_1h : ℝ

noncomputable instance : Inhabited FeatureVec :=
  ⟨⟨0, 0, 0, 0, 0, 0, 0, 0, 0⟩⟩

/-- Feature vector computed by `compute_batch_features` for the event at
position `i` of one entity's chronologically sorted log (the source sorts by
`user_id, timestamp` first; this model takes the sorted per-entity group). -/
noncomputable def featureAt (es : List Ev) (i : ℕ) : FeatureVec where
  login_count_1h := loginCountAt es i
  failed_login_rate_1h := failedRateAt es i
  bytes_transferred_1h := bytesAt es i
  unique_dst_ips_1h := uniqueDstAt es i
  unique_files_24h := uniqueFilesAt es i
  off_hours_ratio_24h := offHoursRatioAt es i
  privilege_change_flag :=
    if (es.getD i default).event_type = "privilege_escalation" then 1 else 0
  geo_anomaly_score :=
    if (es.getD i default).geo_country ≠ "US" then 1 else 0
  dst_ip_entropy_1h := entropyAt es i

/-- Batch mode: one feature vector per event of the full per-entity log. -/
noncomputable def computeBatchFeatures (es : List Ev) : List FeatureVec :=
  (List.range es.length).map fun i => featureAt es i

/-- Feature vector the `/api/predict` endpoint computes for one incoming event:
`predict_threat` (main.py lines 266-287) wraps the single event in a one-row
frame and runs `compute_batch_features` on it, so no prior history is seen. -/
noncomputable def singleEventFeature (e : Ev) : FeatureVec :=
  featureAt [e] 0

/-- Streaming mode as deployed: each event of the log is submitted to
`/api/predict` on its own. -/
noncomputable def streamFeatures (es : List Ev) : List FeatureVec :=
  es.map singleEventFeature

/-- A per-entity log is in non-decreasing timestamp order. -/
def Chrono (es : List Ev) : Prop :=
  es.Pairwise fun a b => a.ts ≤ b.ts

/-- Default `THRESHOLD_CRITICAL` of main.py line 50. -/
def THRESHOLD_CRITICAL : ℚ := 85 / 100

/-- Default `THRESHOLD_HIGH` of main.py line 51. -/
def THRESHOLD_HIGH : ℚ := 70 / 100

/-- Default `THRESHOLD_MEDIUM` of main.py line 52. -/
def THRESHOLD_MEDIUM : ℚ := 50 / 100

/-- Function `get_threat_level` of main.py lines 132-141, with the three configurable
thresholds as parameters. -/
def get_threat_level (critical high medium : ℚ) (score : ℚ) : String :=
  if score ≥ critical then "critical"
  else if score ≥ high then "high"
  else if score ≥ medium then "medium"
  else "low"

/-- Function `get_threat_level` at the default thresholds. -/
def defaultThreatLevel (score : ℚ) : String :=
  get_threat_level THRESHOLD_CRITICAL THRESHOLD_HIGH THRESHOLD_MEDIUM score

/-- Inner dictionary of `map_to_mitre` for the `"apt"` threat type
(main.py lines 115-121). -/
def aptMap : List (String × String × String) :=
  [("login_fail", ("TA0001", "T1110")),
   ("login_success", ("TA0001", "T1078")),
   ("privilege_escalation", ("TA0004", "T1068")),
   ("file_access", ("TA0008", "T1021")),
   ("file_transfer", ("TA0010", "T1041"))]

/-- Inner dictionary of `map_to_mitre` for the `"insider"` threat type
(main.py lines 122-126). -/
def insiderMap : List (String × String × String) :=
  [("file_access", ("TA0009", "T1005")),
   ("file_transfer", ("TA0010", "T1048")),
   ("email_send", ("TA0009", "T1114"))]

/-- Function `map_to_mitre` of main.py lines 103-130: two-level dictionary lookup with
the sentinel pair `("TA0000", "T0000")` for any absent combination. -/
def map_to_mitre (threat_type event_type : String) : String × String :=
  let inner : List (String × String × String) :=
    if threat_type = "apt" then aptMap
    else if threat_type = "insider" then insiderMap
    else []
  (inner.lookup event_type).getD ("TA0000", "T0000")

/-- Response shape of the `/api/predict` endpoint (the fields this core
computes; the database write is omitted). -/
structure PredictionOut where
  threat_score : ℚ
  threat_level : String
  is_malicious : Bool
  mitre_tactic : String
  mitre_technique : String

/-- Scoring part of `predict_threat` (main.py lines 266-299): features of the
one-row frame, opaque scaler, two opaque probability estimators combined by
arithmetic mean, level at default thresholds, hard-coded `"apt"` MITRE
category. -/
noncomputable def predictThreat (scaler : FeatureVec → FeatureVec)
    (rf xgb : FeatureVec → ℚ) (e : Ev) : PredictionOut :=
  let x := singleEventFeature e
  let xScaled := scaler x
  let rfProb := rf xScaled
  let xgbProb := xgb xScaled
  let score := (rfProb + xgbProb) / 2
  let mitre := map_to_mitre "apt" e.event_type
  { threat_score := score
    threat_level := defaultThreatLevel score
    is_malicious := decide (score ≥ THRESHOLD_MEDIUM)
    mitre_tactic := mitre.1
    mitre_technique := mitre.2 }

/-- A row of the `alerts` table, with the fields the correlator touches
(src/backend/app/database/models.py). -/
structure AlertRec where
  id : ℕ
  user_id : String
  ts : ℤ
  threat_score : ℚ
  threat_level : String
  mitre_tactic : Option String
  mitre_technique : Option String
  incident_id : Option ℕ
  deriving DecidableEq, Inhabited

/-- Dictionary `THREAT_SEVERITY_ORDER` of correlator.py lines 23-28, as the dictionary
lookup with default `0` used by `create_incident`. -/
def THREAT_SEVERITY_ORDER (lvl : String) : ℕ :=
  if lvl = "critical" then 4
  else if lvl = "high" then 3
  else if lvl = "medium" then 2
  else if lvl = "low" then 1
  else 0

/-- Checks that the pattern occurs as a prefix of the text. -/
def matchesAt : List Char → List Char → Bool
  | [], _ => true
  | _ :: _, [] => false
  | a :: as, b :: bs => a == b && matchesAt as bs

/-- Checks that the pattern occurs contiguously anywhere in the text
(the Python `in` test on strings). -/
def hasSub : List Char → List Char → Bool
  | needle, [] => needle.isEmpty
  | needle, c :: rest => matchesAt needle (c :: rest) || hasSub needle rest

/-- Python `needle in hay` on strings. -/
def strHasSub (hay needle : String) : Bool :=
  hasSub needle.toList hay.toList

/-- ASCII lowercasing of a string, character by character (Python `str.lower()`
on the ASCII tactic names handled here). -/
def lowerStr (s : String) : String :=
  String.mk (s.data.map Char.toLower)

/-- Method `AlertCorrelator.map_attack_stage` (correlator.py lines 172-203):
falsy tactic gives "Unknown", then a fixed chain of case-insensitive substring
tests, and "Other" when nothing matches. -/
def map_attack_stage (mitre_tactic : Option String) : String :=
  match mitre_tactic with
  | none => "Unknown"
  | some t =>
    if t = "" then "Unknown"
    else
      let tactic := lowerStr t
      if strHasSub tactic "initial access" then "Initial Access"
      else if strHasSub tactic "execution" then "Execution"
      else if strHasSub tactic "persistence" then "Persistence"
      else if strHasSub tactic "privilege escalation" then "Privilege Escalation"
      else if strHasSub tactic "defense evasion" then "Defense Evasion"
      else if strHasSub tactic "credential access" then "Credential Access"
      else if strHasSub tactic "discovery" then "Discovery"
      else if strHasSub tactic "lateral movement" then "Lateral Movement"
      else if strHasSub tactic "collection" then "Collection"
      else if strHasSub tactic "exfiltration" then "Exfiltration"
      else if strHasSub tactic "command and control" || strHasSub tactic "c2" then
        "Command & Control"
      else "Other"

/-- One entry of an incident's `attack_chain`. -/
structure ChainEntry where
  stage : String
  tactic : Option String
  technique : Option String
  ts : ℤ
  deriving DecidableEq

/-- A row of the `incidents` table, restricted to the fields `create_incident`
derives from the alert list (the narrative text is not used by any claim). -/
structure IncidentRec where
  incident_number : String
  user_id : String
  start_time : ℤ
  end_time : ℤ
  severity : String
  status : String
  attack_chain : List ChainEntry
  deriving DecidableEq

/-- Chronological stable sort used both by the `order_by(timestamp.asc())`
query and by the `sorted(alerts, key=timestamp)` call in `create_incident`. -/
def sortByTs (alerts : List AlertRec) : List AlertRec :=
  List.insertionSort (fun a b => a.ts ≤ b.ts) alerts

instance : IsTotal AlertRec fun a b => a.ts ≤ b.ts :=
  ⟨fun a b => le_total a.ts b.ts⟩

instance : IsTrans AlertRec fun a b => a.ts ≤ b.ts :=
  ⟨fun _ _ _ h1 h2 => le_trans h1 h2⟩

/-- Method `AlertCorrelator.create_incident` (correlator.py lines 73-144): invalid
argument for an empty list; otherwise sorts the alerts, folds the maximal
severity, builds the attack chain, and links every alert to the new incident
id.  Returns the created incident together with the mutated alert rows. -/
def create_incident (newId : ℕ) (alerts : List AlertRec) :
    Except String (IncidentRec × List AlertRec) :=
  if alerts = [] then .error "create_incident requires at least one alert"
  else
    let sorted := sortByTs alerts
    let uid := (sorted.headD default).user_id
    let startTime := (sorted.headD default).ts
    let endTime := (sorted.getLastD default).ts
    let maxSeverity := sorted.foldl
      (fun acc a =>
        if a.threat_level ≠ "" ∧
            THREAT_SEVERITY_ORDER acc < THREAT_SEVERITY_ORDER a.threat_level
        then a.threat_level else acc)
      "low"
    let chain : List ChainEntry := sorted.map fun a =>
      { stage := map_attack_stage a.mitre_tactic
        tactic := a.mitre_tactic
        technique := a.mitre_technique
        ts := a.ts }
    let incident : IncidentRec :=
      { incident_number := "INC-" ++ toString startTime ++ "-" ++ uid
        user_id := uid
        start_time := startTime
        end_time := endTime
        severity := maxSeverity
        status := "open"
        attack_chain := chain }
    .ok (incident, sorted.map fun a => { a with incident_id := some newId })

/-- Window selection of `correlate_alerts` (correlator.py lines 51-65): that
entity's alerts with `window_start <= timestamp <= window_end` — both bounds
inclusive — ordered ascending by timestamp. -/
def selectAlerts (db : List AlertRec) (uid : String)
    (window_minutes now : ℤ) : List AlertRec :=
  sortByTs (db.filter fun a =>
    a.user_id == uid && decide (now - window_minutes * 60 ≤ a.ts)
      && decide (a.ts ≤ now))

/-- Method `AlertCorrelator.correlate_alerts` (correlator.py lines 34-71): select the
entity's alerts in the trailing window, return none when empty, otherwise
create exactly one incident from them. -/
def correlate_alerts (newId : ℕ) (db : List AlertRec) (uid : String)
    (window_minutes now : ℤ) : Option (IncidentRec × List AlertRec) :=
  let alerts := selectAlerts db uid window_minutes now
  if alerts = [] then none
  else
    match create_incident newId alerts with
    | .ok r => some r
    | .error _ => none

/-- The eleven kill-chain stage names of the specification, in its order. -/
def claimStageNames : List String :=
  ["Initial Access", "Execution", "Persistence", "Privilege Escalation",
   "Defense Evasion", "Credential Access", "Discovery", "Lateral Movement",
   "Collection", "Exfiltration", "Command & Control"]

/-- Ordered substring rules actually tested by `map_attack_stage`: each stage
is guarded by a list of alternative lowercase patterns, the last stage by the
two patterns "command and control" and "c2". -/
def codeStageRules : List (List String × String) :=
  [(["initial access"], "Initial Access"),
   (["execution"], "Execution"),
   (["persistence"], "Persistence"),
   (["privilege escalation"], "Privilege Escalation"),
   (["defense evasion"], "Defense Evasion"),
   (["credential access"], "Credential Access"),
   (["discovery"], "Discovery"),
   (["lateral movement"], "Lateral Movement"),
   (["collection"], "Collection"),
   (["exfiltration"], "Exfiltration"),
   (["command and control", "c2"], "Command & Control")]

/-- First-match interpreter over an ordered substring-rule list, defaulting to
"Other"; phrased after the specification's description of `stageOf`. -/
def firstMatchStage : List (List String × String) → String → String
  | [], _ => "Other"
  | (pats, stage) :: rest, t =>
    if pats.any (fun p => strHasSub t p) then stage else firstMatchStage rest t

/-- Specification-shaped restatement of the stage mapping: falsy tactic gives
"Unknown", otherwise first match over `codeStageRules` on the lowercased
tactic, defaulting to "Other". -/
def stageSpec (tac : Option String) : String :=
  match tac with
  | none => "Unknown"
  | some t => if t = "" then "Unknown" else firstMatchStage codeStageRules (lowerStr t)

/-- Sample log for the batch-versus-streaming divergence: two successful
logins of one entity, one minute apart. -/
def exC1 : List Ev :=
  [⟨0, "u1", "login_success", "", "", 0, "US"⟩,
   ⟨60, "u1", "login_success", "", "", 0, "US"⟩]

/-- Sample log with two distinct destination addresses exactly one hour
apart. -/
def exC2 : List Ev :=
  [⟨0, "u1", "http_request", "10.0.0.1", "", 0, "US"⟩,
   ⟨3600, "u1", "http_request", "10.0.0.2", "", 0, "US"⟩]

/-- Value of `unique_dst_ips_1h` the claim predicts: distinct nonempty
destination addresses in the half-open window (t − 1h, t], an observation aged
exactly one hour evicted.  Modelled from the claim's words, for refutation. -/
def claimUniqueDst (es : List Ev) (i : ℕ) : ℕ :=
  (((es.take (i + 1)).filter fun e =>
      decide (e.dst_ip ≠ "") && decide ((es.getD i default).ts - e.ts < 3600)).map
    Ev.dst_ip).toFinset.card

/-- Alert selection as the claim states it: timestamps in the half-open window
(now − w, now].  Modelled from the claim's words, for refutation. -/
def claimSelection (db : List AlertRec) (uid : String) (w now : ℤ) : List AlertRec :=
  db.filter fun a =>
    a.user_id == uid && decide (now - w * 60 < a.ts) && decide (a.ts ≤ now)

/-- One alert sitting exactly at the lower window boundary `now − w·60`. -/
def dbBoundary : List AlertRec :=
  [⟨1, "u", 3600, 9 / 10, "high", none, none, none⟩]

/-- One alert strictly inside the correlation window. -/
def dbW : List AlertRec :=
  [⟨1, "u", 7000, 9 / 10, "high", some "TA0001", some "T1110", none⟩]

/-- Sample single-event log for witnesses. -/
def exC6 : List Ev :=
  [⟨0, "u1", "http_request", "10.0.0.1", "", 0, "US"⟩]

/-- Sample event for scoring witnesses. -/
def evWitness : Ev :=
  ⟨0, "user042", "file_transfer", "203.0.113.5", "secrets.csv", 500000000, "RU"⟩

/-- Sample event whose type is absent from the apt mapping table. -/
def evHttp : Ev :=
  ⟨0, "u1", "http_request", "", "", 0, "US"⟩

theorem evictLoop_eq (ts h : ℕ) :
    ∀ (l : List (ℕ × String)), sortedFst l →
      evictLoop ts h l ↑(l.map Prod.snd) =
        (l.filter fun p => decide (ts - p.1 ≤ h),
         ↑((l.filter fun p => decide (ts - p.1 ≤ h)).map Prod.snd)) := by
  intro l
  induction l with
  | nil => intro _; simp [evictLoop]
  | cons hd rest ih =>
    intro hs
    obtain ⟨t, v⟩ := hd
    rw [sortedFst, List.pairwise_cons] at hs
    by_cases hc : ts - t > h
    · have hfalse : (decide (ts - t ≤ h)) = false := by
        simp only [decide_eq_false_iff_not]
        omega
      have hcoe : ((((t, v) :: rest).map Prod.snd : List String) : Multiset String)
          = v ::ₘ ↑(rest.map Prod.snd) := by simp
      rw [evictLoop, if_pos hc, hcoe, Multiset.erase_cons_head, ih hs.2]
      simp only [List.filter_cons, hfalse, Bool.false_eq_true, if_false]
    · have htv : (ts - t ≤ h) := by omega
      have hfilter : ((t, v) :: rest).filter (fun p => decide (ts - p.1 ≤ h))
          = (t, v) :: rest := by
        rw [List.filter_eq_self]
        intro p hp
        rw [List.mem_cons] at hp
        rcases hp with rfl | hp
        · simpa using htv
        · have h1 : t ≤ p.1 := hs.1 p hp
          have hle : ts - p.1 ≤ h := by omega
          simpa using hle
      rw [evictLoop, if_neg hc, hfilter]

theorem specPairs_filter (t₀ t₁ h : ℕ) (l : List (ℕ × String)) (hle : t₀ ≤ t₁) :
    (specPairs t₀ h l).filter (fun p => decide (t₁ - p.1 ≤ h)) = specPairs t₁ h l := by
  rw [specPairs, List.filter_filter]
  apply List.filter_congr
  intro p _
  by_cases h1 : t₁ - p.1 ≤ h
  · have h0 : t₀ - p.1 ≤ h := by omega
    simp [h0, h1]
  · simp [h1]

theorem specPairs_append (t h : ℕ) (l₁ l₂ : List (ℕ × String)) :
    specPairs t h (l₁ ++ l₂) = specPairs t h l₁ ++ specPairs t h l₂ := by
  simp [specPairs, List.filter_append]

theorem runW_length (h : ℕ) :
    ∀ (l : List (ℕ × String)) (s : WState), (runW h s l).length = l.length := by
  intro l
  induction l with
  | nil => intro s; rfl
  | cons hd rest ih =>
    intro s
    obtain ⟨t, v⟩ := hd
    rw [runW]
    simp [ih]

theorem runW_getD (h : ℕ) :
    ∀ (l : List (ℕ × String)) (s : WState) (i : ℕ), i < l.length →
      (runW h s l).getD i .init = procW h s (l.take (i + 1)) := by
  intro l
  induction l with
  | nil => intro s i hi; simp at hi
  | cons hd rest ih =>
    intro s i hi
    obtain ⟨t, v⟩ := hd
    cases i with
    | zero => simp [runW, procW]
    | succ j =>
      rw [runW]
      simp only [List.getD_cons_succ, List.take_succ_cons]
      rw [ih _ j (by simpa using hi)]
      rfl

theorem procW_spec (h : ℕ) :
    ∀ (l : List (ℕ × String)), sortedFst l → ∀ p, l.getLast? = some p →
      (procW h .init l).window = specPairs p.1 h l ∧
      (procW h .init l).counts = ↑((specPairs p.1 h l).map Prod.snd) := by
  intro l
  induction l using List.reverseRecOn with
  | nil => intro _ p hp; simp at hp
  | append_singleton l' a ih =>
    intro hs p hp
    rw [List.getLast?_concat] at hp
    obtain rfl := (Option.some.inj hp).symm
    have hsplit := List.pairwise_append.mp hs
    have hs' : sortedFst l' := hsplit.1
    have hbound : ∀ x ∈ l', x.1 ≤ p.1 := fun x hx => hsplit.2.2 x hx p (by simp)
    have hfold : procW h .init (l' ++ [p]) = stepW h (procW h .init l') p.1 p.2 := by
      simp [procW, List.foldl_append]
    have hlast : specPairs p.1 h [p] = if p.2 = "" then [] else [p] := by
      by_cases hv : p.2 = "" <;> simp [specPairs, hv, Nat.sub_self]
    by_cases hl' : l' = []
    · subst hl'
      rw [hfold]
      have hinit : procW h .init ([] : List (ℕ × String)) = WState.init := rfl
      rw [hinit]
      by_cases hv : p.2 = "" <;>
        simp [stepW, WState.init, evictLoop, hv, specPairs, Nat.sub_self]
    · have hq : l'.getLast? = some (l'.getLast hl') := List.getLast?_eq_getLast l' hl'
      set q := l'.getLast hl' with hqdef
      have hqmem : q ∈ l' := List.getLast_mem hl'
      have hqa : q.1 ≤ p.1 := hbound q hqmem
      obtain ⟨ihw, ihc⟩ := ih hs' q hq
      have hsortedSpec : sortedFst (specPairs q.1 h l') :=
        List.Pairwise.filter _ hs'
      have hev := evictLoop_eq p.1 h (specPairs q.1 h l') hsortedSpec
      rw [hfold, stepW, ihw, ihc, hev, specPairs_filter q.1 p.1 h l' hqa]
      rw [specPairs_append, hlast]
      by_cases hv : p.2 = ""
      · simp [hv]
      · have hperm :
            ((specPairs p.1 h l').map Prod.snd ++ [p.2] : Multiset String)
              = p.2 ::ₘ ↑((specPairs p.1 h l').map Prod.snd) := by
          rw [Multiset.cons_coe]
          exact Multiset.coe_eq_coe.mpr (List.perm_append_singleton _ _)
        refine ⟨by simp [hv], ?_⟩
        simp only [hv, ite_false, List.map_append, List.map_cons, List.map_nil]
        rw [hperm]

theorem lookup_snd_mem (l : List (String × String × String)) (k : String)
    (v : String × String) (h : l.lookup k = some v) : v ∈ l.map Prod.snd := by
  induction l with
  | nil => simp [List.lookup] at h
  | cons hd tl ih =>
    obtain ⟨a, b⟩ := hd
    simp only [List.lookup] at h
    by_cases hk : (k == a) = true
    · rw [hk] at h
      simp only [List.map_cons, List.mem_cons]
      exact Or.inl (Option.some.inj h).symm
    · rw [Bool.not_eq_true] at hk
      rw [hk] at h
      simp only [List.map_cons, List.mem_cons]
      exact Or.inr (ih h)

theorem lookup_none_of_not_mem (l : List (String × String × String)) (k : String)
    (h : k ∉ l.map Prod.fst) : l.lookup k = none := by
  induction l with
  | nil => rfl
  | cons hd tl ih =>
    obtain ⟨a, b⟩ := hd
    simp only [List.map_cons, List.mem_cons, not_or] at h
    have hk : (k == a) = false := beq_eq_false_iff_ne.mpr h.1
    simp only [List.lookup, hk]
    exact ih h.2

/-- C4: the score-to-level mapping uses inclusive lower bounds with the highest
qualifying level winning; with the default thresholds every score at or above
0.85 is critical, [0.70, 0.85) is high, [0.50, 0.70) is medium, below 0.50 is
low, and in particular 0.85 gives critical while 0.8499999 gives high. -/
theorem threat_level_thresholds :
    (∀ s : ℚ, 85 / 100 ≤ s → defaultThreatLevel s = "critical")
    ∧ (∀ s : ℚ, 70 / 100 ≤ s → s < 85 / 100 → defaultThreatLevel s = "high")
    ∧ (∀ s : ℚ, 50 / 100 ≤ s → s < 70 / 100 → defaultThreatLevel s = "medium")
    ∧ (∀ s : ℚ, s < 50 / 100 → defaultThreatLevel s = "low")
    ∧ defaultThreatLevel (85 / 100) = "critical"
    ∧ defaultThreatLevel (8499999 / 10000000) = "high" := by
  have hc : defaultThreatLevel (85 / 100) = "critical" := by
    unfold defaultThreatLevel get_threat_level
        THRESHOLD_CRITICAL THRESHOLD_HIGH THRESHOLD_MEDIUM
    norm_num
  have hh : defaultThreatLevel (8499999 / 10000000) = "high" := by
    unfold defaultThreatLevel get_threat_level
        THRESHOLD_CRITICAL THRESHOLD_HIGH THRESHOLD_MEDIUM
    norm_num
  refine ⟨?_, ?_, ?_, ?_, hc, hh⟩ <;>
  · intro s
    unfold defaultThreatLevel get_threat_level
        THRESHOLD_CRITICAL THRESHOLD_HIGH THRESHOLD_MEDIUM
    intros
    split_ifs <;> first | rfl | linarith

/-- Witness for C4 at the concrete score 0.9. -/
theorem threat_level_thresholds_witness :
    (85 / 100 : ℚ) ≤ 9 / 10 ∧ defaultThreatLevel (9 / 10) = "critical" :=
  ⟨by norm_num, threat_level_thresholds.1 (9 / 10) (by norm_num)⟩

/-- C5: the authoritative threat score of the prediction endpoint is the exact
arithmetic mean of the two estimators' probability outputs on the same scaled
input, and identical inputs give identical scores. -/
theorem ensemble_mean (scaler : FeatureVec → FeatureVec) (rf xgb : FeatureVec → ℚ)
    (e e' : Ev) :
    (predictThreat scaler rf xgb e).threat_score
        = (rf (scaler (singleEventFeature e)) + xgb (scaler (singleEventFeature e))) / 2
    ∧ (e = e' → (predictThreat scaler rf xgb e).threat_score
        = (predictThreat scaler rf xgb e').threat_score) := by
  refine ⟨rfl, ?_⟩
  intro h
  rw [h]

/-- Witness for C5 with constant estimators returning 1/2 and 3/4. -/
theorem ensemble_mean_witness :
    (predictThreat (fun v => v) (fun _ => 1 / 2) (fun _ => 3 / 4) evWitness).threat_score
        = 5 / 8
    ∧ (predictThreat (fun v => v) (fun _ => 1 / 2) (fun _ => 3 / 4) evWitness).threat_score
        = (predictThreat (fun v => v) (fun _ => 1 / 2) (fun _ => 3 / 4) evWitness).threat_score := by
  constructor
  · rw [(ensemble_mean (fun v => v) (fun _ => 1 / 2) (fun _ => 3 / 4) evWitness evWitness).1]
    norm_num
  · exact (ensemble_mean (fun v => v) (fun _ => 1 / 2) (fun _ => 3 / 4) evWitness evWitness).2 rfl

/-- C8: `create_incident` on an explicitly empty alert list fails with the
invalid-argument error and creates no incident, while `correlate_alerts` on an
empty window selection returns none without error. -/
theorem create_incident_empty_vs_correlate :
    (∀ newId : ℕ,
        create_incident newId [] = .error "create_incident requires at least one alert")
    ∧ ∀ (newId : ℕ) (db : List AlertRec) (uid : String) (w now : ℤ),
        selectAlerts db uid w now = [] → correlate_alerts newId db uid w now = none := by
  constructor
  · intro newId; rfl
  · intro newId db uid w now h
    simp [correlate_alerts, h]

/-- Witness for C8 on the empty alert table. -/
theorem create_incident_empty_vs_correlate_witness :
    selectAlerts [] "u" 60 0 = [] ∧ correlate_alerts 0 [] "u" 60 0 = none :=
  ⟨by decide, create_incident_empty_vs_correlate.2 0 [] "u" 60 0 (by decide)⟩

/-- C10: the prediction endpoint resolves MITRE context with the hard-coded
category "apt"; any event type absent from the apt table (such as email_send)
yields the sentinel pair, and no insider-table entry is ever returned. -/
theorem predict_mitre_apt (scaler : FeatureVec → FeatureVec)
    (rf xgb : FeatureVec → ℚ) (e : Ev) :
    ((predictThreat scaler rf xgb e).mitre_tactic,
      (predictThreat scaler rf xgb e).mitre_technique) = map_to_mitre "apt" e.event_type
    ∧ map_to_mitre "apt" "email_send" = ("TA0000", "T0000")
    ∧ (e.event_type ∉ aptMap.map Prod.fst →
        map_to_mitre "apt" e.event_type = ("TA0000", "T0000"))
    ∧ map_to_mitre "apt" e.event_type ∉ insiderMap.map Prod.snd := by
  refine ⟨rfl, by decide, ?_, ?_⟩
  · intro h
    simp [map_to_mitre, lookup_none_of_not_mem aptMap e.event_type h]
  · rcases hl : aptMap.lookup e.event_type with _ | v
    · have hm : map_to_mitre "apt" e.event_type = ("TA0000", "T0000") := by
        simp [map_to_mitre, hl]
      rw [hm]
      decide
    · have hv := lookup_snd_mem aptMap e.event_type v hl
      have hm : map_to_mitre "apt" e.event_type = v := by
        simp [map_to_mitre, hl]
      rw [hm]
      simp only [aptMap, List.map_cons, List.map_nil, List.mem_cons,
        List.not_mem_nil, or_false] at hv
      rcases hv with rfl | rfl | rfl | rfl | rfl <;> decide

/-- Witness for C10 at the event type http_request, absent from the apt table. -/
theorem predict_mitre_apt_witness :
    evHttp.event_type ∉ aptMap.map Prod.fst
    ∧ map_to_mitre "apt" evHttp.event_type = ("TA0000", "T0000") :=
  ⟨by decide,
   (predict_mitre_apt (fun v => v) (fun _ => 0) (fun _ => 0) evHttp).2.2.1 (by decide)⟩

/-- Counterexample for C7: the tactic string "c2" contains none of the eleven
stage names the claim lists (case-insensitively), yet `map_attack_stage`
returns "Command & Control" instead of "Other". -/
theorem map_attack_stage_counterexample :
    (claimStageNames.all fun n => !(strHasSub "c2" (lowerStr n))) = true
    ∧ map_attack_stage (some "c2") = "Command & Control"
    ∧ ("Command & Control" : String) ≠ "Other" :=
  ⟨by decide, by decide, by decide⟩

/-- C7 as amended: the stage mapping is the case-insensitive first-match
substring interpreter over the code's ordered rule list, whose final stage is
guarded by the two patterns "command and control" and "c2"; unmatched strings
give "Other" and an absent or empty tactic gives "Unknown". -/
theorem map_attack_stage_amended (tac : Option String) :
    map_attack_stage tac = stageSpec tac := by
  cases tac with
  | none => rfl
  | some t =>
    by_cases h : t = ""
    · simp [map_attack_stage, stageSpec, h]
    · simp only [map_attack_stage, stageSpec, if_neg h]
      simp [firstMatchStage, codeStageRules]

theorem chrono_sortedFst (es : List Ev) (hs : Chrono es) : sortedFst (dstPairs es) := by
  rw [sortedFst, dstPairs, List.pairwise_map]
  exact hs

/-- The destination counter emitted for event `i` of a sorted log holds exactly
the multiset of nonempty destination addresses of the events at positions up to
`i` whose age relative to event `i` is at most one hour (closed window). -/
theorem dstCounts_eq (es : List Ev) (hs : Chrono es) (i : ℕ) (hi : i < es.length) :
    ((dstStates es).getD i .init).counts
      = ↑(((es.take (i + 1)).filter fun e =>
            decide (e.dst_ip ≠ "") && decide ((es.getD i default).ts - e.ts ≤ 3600)).map
          Ev.dst_ip) := by
  have hlen : i < (dstPairs es).length := by simpa [dstPairs] using hi
  have h1 : dstStates es = runW 3600 .init (dstPairs es) := rfl
  have h2 : (runW 3600 WState.init (dstPairs es)).getD i .init
      = procW 3600 .init ((dstPairs es).take (i + 1)) :=
    runW_getD 3600 (dstPairs es) .init i hlen
  have hsorted : sortedFst ((dstPairs es).take (i + 1)) :=
    List.Pairwise.sublist (List.take_sublist _ _) (chrono_sortedFst es hs)
  have hgetlast : ((dstPairs es).take (i + 1)).getLast? = some ((dstPairs es).get ⟨i, hlen⟩) := by
    rw [List.take_succ, List.getElem?_eq_getElem hlen]
    simp only [Option.toList_some]
    rw [List.getLast?_concat]
    rfl
  obtain ⟨-, hcounts⟩ := procW_spec 3600 ((dstPairs es).take (i + 1)) hsorted _ hgetlast
  rw [h1, h2, hcounts]
  have htake : (dstPairs es).take (i + 1) = dstPairs (es.take (i + 1)) := by
    rw [dstPairs, dstPairs, List.map_take]
  have hfst : ((dstPairs es).get ⟨i, hlen⟩).1 = (es.getD i default).ts := by
    simp [dstPairs, List.getD, List.getElem?_eq_getElem hi]
  rw [htake, hfst]
  have hlists : (specPairs (es.getD i default).ts 3600 (dstPairs (es.take (i + 1)))).map Prod.snd
      = ((es.take (i + 1)).filter fun e =>
          decide (e.dst_ip ≠ "") && decide ((es.getD i default).ts - e.ts ≤ 3600)).map
        Ev.dst_ip := by
    simp only [specPairs, dstPairs, List.filter_map, List.map_map]
    rfl
  rw [hlists]

/-- Counterexample for C2: with two distinct destination addresses exactly one
hour apart, the code keeps the observation aged exactly one hour and reports 2
distinct addresses, while the claim's half-open window predicts 1. -/
theorem unique_dst_counterexample :
    Chrono exC2 ∧ uniqueDstAt exC2 1 = 2 ∧ claimUniqueDst exC2 1 = 1 :=
  ⟨by unfold Chrono; decide, by decide, by decide⟩

/-- C2 as amended: `unique_dst_ips_1h` at event `i` of a chronologically sorted
log counts the distinct nonempty destination addresses among the events at
positions up to `i` whose timestamp lies in the closed trailing window
[tᵢ − 1h, tᵢ]; an observation aged exactly one hour is retained, not evicted. -/
theorem unique_dst_closed_window (es : List Ev) (hs : Chrono es) (i : ℕ)
    (hi : i < es.length) :
    uniqueDstAt es i
      = (((es.take (i + 1)).filter fun e =>
            decide (e.dst_ip ≠ "") && decide ((es.getD i default).ts - e.ts ≤ 3600)).map
          Ev.dst_ip).toFinset.card := by
  rw [uniqueDstAt, dstCounts_eq es hs i hi]
  rfl

/-- Witness for the amended C2 on the boundary log. -/
theorem unique_dst_closed_window_witness :
    Chrono exC2
    ∧ uniqueDstAt exC2 1
        = (((exC2.take 2).filter fun e =>
              decide (e.dst_ip ≠ "") && decide ((exC2.getD 1 default).ts - e.ts ≤ 3600)).map
            Ev.dst_ip).toFinset.card :=
  ⟨by unfold Chrono; decide,
   unique_dst_closed_window exC2 (by unfold Chrono; decide) 1 (by decide)⟩

theorem shannonEntropy_of_few (m : Multiset String) (h : m.toFinset.card ≤ 1) :
    shannonEntropy m = 0 := by
  rw [shannonEntropy]
  by_cases hm : m = 0
  · rw [if_pos hm]
  · rw [if_neg hm]
    have hne : m.toFinset.Nonempty := Multiset.toFinset_nonempty.mpr hm
    have hcard : m.toFinset.card = 1 :=
      le_antisymm h (Finset.card_pos.mpr hne)
    obtain ⟨v, hv⟩ := Finset.card_eq_one.mp hcard
    rw [hv, Finset.sum_singleton]
    have hallv : ∀ b ∈ m, v = b := by
      intro b hb
      have hbt : b ∈ m.toFinset := Multiset.mem_toFinset.mpr hb
      rw [hv, Finset.mem_singleton] at hbt
      exact hbt.symm
    have hcount : m.count v = Multiset.card m := Multiset.count_eq_card.mpr hallv
    have hcard0 : (Multiset.card m : ℝ) ≠ 0 := by
      simpa [Multiset.card_eq_zero] using hm
    rw [hcount, div_self hcard0, Real.log_one, mul_zero, neg_zero]

/-- C6: `dst_ip_entropy_1h` at event `i` of a sorted log is the natural-log
Shannon entropy of the destination-address frequency distribution held in the
one-hour window after eviction and insertion of the current event's address,
and it is 0 whenever that window holds at most one distinct address. -/
theorem entropy_window (es : List Ev) (hs : Chrono es) (i : ℕ) (hi : i < es.length) :
    entropyAt es i
        = shannonEntropy ↑(((es.take (i + 1)).filter fun e =>
            decide (e.dst_ip ≠ "") && decide ((es.getD i default).ts - e.ts ≤ 3600)).map
          Ev.dst_ip)
    ∧ ((((es.take (i + 1)).filter fun e =>
            decide (e.dst_ip ≠ "") && decide ((es.getD i default).ts - e.ts ≤ 3600)).map
          Ev.dst_ip).toFinset.card ≤ 1 → entropyAt es i = 0) := by
  have hc := dstCounts_eq es hs i hi
  constructor
  · rw [entropyAt, hc]
  · intro h1
    rw [entropyAt, hc]
    exact shannonEntropy_of_few _ h1

/-- Witness for C6: a single-event log has entropy 0. -/
theorem entropy_window_witness : entropyAt exC6 0 = 0 :=
  (entropy_window exC6 (by unfold Chrono; decide) 0 (by decide)).2 (by decide)

/-- Counterexample for C3: an alert whose timestamp sits exactly at
now − window lies outside the claim's half-open selection, which is empty, yet
`correlate_alerts` selects it (closed lower bound) and creates an incident. -/
theorem correlate_boundary_counterexample :
    claimSelection dbBoundary "u" 60 7200 = []
    ∧ (correlate_alerts 1 dbBoundary "u" 60 7200).isSome = true :=
  ⟨by decide, by decide⟩

/-- C3 as amended: `correlate_alerts` selects exactly the entity's alerts with
timestamp in the closed window [now − w·60, now] (both bounds inclusive),
ordered ascending; an empty selection returns none with no incident, and a
selection of N ≥ 1 alerts yields exactly one incident whose attack chain has
length N and whose alert links reference all N selected alerts. -/
theorem correlate_spec (newId : ℕ) (db : List AlertRec) (uid : String) (w now : ℤ) :
    (∀ a : AlertRec, a ∈ selectAlerts db uid w now ↔
        a ∈ db ∧ a.user_id = uid ∧ now - w * 60 ≤ a.ts ∧ a.ts ≤ now)
    ∧ List.Sorted (fun a b : AlertRec => a.ts ≤ b.ts) (selectAlerts db uid w now)
    ∧ (selectAlerts db uid w now = [] → correlate_alerts newId db uid w now = none)
    ∧ (selectAlerts db uid w now ≠ [] → ∃ inc linked,
        correlate_alerts newId db uid w now = some (inc, linked)
        ∧ inc.attack_chain.length = (selectAlerts db uid w now).length
        ∧ List.Perm (linked.map AlertRec.id) ((selectAlerts db uid w now).map AlertRec.id)
        ∧ ∀ a ∈ linked, a.incident_id = some newId) := by
  refine ⟨?_, ?_, ?_, ?_⟩
  · intro a
    rw [selectAlerts, sortByTs]
    rw [(List.perm_insertionSort (fun a b : AlertRec => a.ts ≤ b.ts) _).mem_iff]
    rw [List.mem_filter]
    simp [and_assoc]
  · exact List.sorted_insertionSort _ _
  · intro h
    simp [correlate_alerts, h]
  · intro hne
    rw [correlate_alerts, if_neg hne, create_incident, if_neg hne]
    refine ⟨_, _, rfl, ?_, ?_, ?_⟩
    · simp only [List.length_map]
      exact (List.perm_insertionSort _ _).length_eq
    · have h1 : ((sortByTs (selectAlerts db uid w now)).map
            fun a => { a with incident_id := some newId }).map AlertRec.id
          = (sortByTs (selectAlerts db uid w now)).map AlertRec.id := by
        rw [List.map_map]
        rfl
      rw [h1]
      exact (List.perm_insertionSort _ _).map AlertRec.id
    · intro a ha
      rw [List.mem_map] at ha
      obtain ⟨b, -, rfl⟩ := ha
      rfl

/-- Witness for the amended C3 on a one-alert table. -/
theorem correlate_spec_witness :
    selectAlerts dbW "u" 60 7200 ≠ []
    ∧ ∃ inc linked, correlate_alerts 7 dbW "u" 60 7200 = some (inc, linked)
        ∧ inc.attack_chain.length = (selectAlerts dbW "u" 60 7200).length
        ∧ List.Perm (linked.map AlertRec.id) ((selectAlerts dbW "u" 60 7200).map AlertRec.id)
        ∧ ∀ a ∈ linked, a.incident_id = some 7 :=
  ⟨by decide, (correlate_spec 7 dbW "u" 60 7200).2.2.2 (by decide)⟩

/-- C9: the prediction endpoint computes features from a one-row frame holding
only the submitted event, so every windowed feature reflects at most that
event: the three uniqueness counts and the failed-login rate are each 0 or 1,
the hourly byte sum is the event's own byte count, and the entropy is 0. -/
theorem single_event_features (e : Ev) :
    ((singleEventFeature e).login_count_1h = 0 ∨ (singleEventFeature e).login_count_1h = 1)
    ∧ ((singleEventFeature e).unique_dst_ips_1h = 0
        ∨ (singleEventFeature e).unique_dst_ips_1h = 1)
    ∧ ((singleEventFeature e).unique_files_24h = 0
        ∨ (singleEventFeature e).unique_files_24h = 1)
    ∧ ((singleEventFeature e).failed_login_rate_1h = 0
        ∨ (singleEventFeature e).failed_login_rate_1h = 1)
    ∧ (singleEventFeature e).bytes_transferred_1h = e.bytes
    ∧ (singleEventFeature e).dst_ip_entropy_1h = 0 := by
  have hwin : rollWin [e] 0 3600 = [e] := by
    simp [rollWin, Nat.sub_self]
  refine ⟨?_, ?_, ?_, ?_, ?_, ?_⟩
  · by_cases h : (e.event_type == "login_success") = true
    · right
      show loginCountAt [e] 0 = 1
      simp [loginCountAt, hwin, h]
    · left
      show loginCountAt [e] 0 = 0
      simp [loginCountAt, hwin, h]
  · by_cases hd : e.dst_ip = ""
    · left
      show uniqueDstAt [e] 0 = 0
      simp [uniqueDstAt, dstStates, dstPairs, runW, stepW, evictLoop, WState.init, hd]
    · right
      show uniqueDstAt [e] 0 = 1
      simp [uniqueDstAt, dstStates, dstPairs, runW, stepW, evictLoop, WState.init, hd]
  · by_cases hf : e.file_name = ""
    · left
      show uniqueFilesAt [e] 0 = 0
      simp [uniqueFilesAt, fileStates, filePairs, runW, stepW, evictLoop, WState.init, hf]
    · right
      show uniqueFilesAt [e] 0 = 1
      simp [uniqueFilesAt, fileStates, filePairs, runW, stepW, evictLoop, WState.init, hf]
  · by_cases h1 : (e.event_type == "login_success") = true
    · left
      show failedRateAt [e] 0 = 0
      have h2 : (e.event_type == "login_fail") = false := by
        rw [beq_iff_eq] at h1
        rw [beq_eq_false_iff_ne, h1]
        decide
      simp [failedRateAt, loginCountAt, failCountAt, hwin, h1, h2]
    · by_cases h2 : (e.event_type == "login_fail") = true
      · right
        show failedRateAt [e] 0 = 1
        simp [failedRateAt, loginCountAt, failCountAt, hwin, h1, h2]
      · left
        show failedRateAt [e] 0 = 0
        simp [failedRateAt, loginCountAt, failCountAt, hwin, h1, h2]
  · show bytesAt [e] 0 = e.bytes
    simp [bytesAt, hwin]
  · show shannonEntropy ((dstStates [e]).getD 0 .init).counts = 0
    refine shannonEntropy_of_few _ ?_
    by_cases hd : e.dst_ip = "" <;>
      simp [dstStates, dstPairs, runW, stepW, evictLoop, WState.init, hd]

/-- C1 is a code bug: the repository has no stateful streaming extractor (the
engineering module says the real-time path is omitted), and the deployed
streaming path computes each event's features from a one-row frame.  On a log
of two logins one minute apart, batch reports `login_count_1h = 2` at the
second event while the streaming path reports 1, so the outputs are not
bit-identical. -/
theorem batch_stream_divergence :
    Chrono exC1
    ∧ (computeBatchFeatures exC1).getD 1 default ≠ (streamFeatures exC1).getD 1 default := by
  refine ⟨by unfold Chrono; decide, ?_⟩
  intro hEq
  have hb : (computeBatchFeatures exC1).getD 1 default = featureAt exC1 1 := rfl
  have hstream : (streamFeatures exC1).getD 1 default
      = singleEventFeature (exC1.getD 1 default) := rfl
  have h1 : (featureAt exC1 1).login_count_1h = 2 := by
    show loginCountAt exC1 1 = 2
    decide
  have h2 : (singleEventFeature (exC1.getD 1 default)).login_count_1h = 1 := by
    show loginCountAt [exC1.getD 1 default] 0 = 1
    decide
  rw [hb, hstream] at hEq
  have hproj := congrArg FeatureVec.login_count_1h hEq
  rw [h1, h2] at hproj
  exact absurd hproj (by decide)

end InsiderDetect
